import Mathlib

/-!
Verification of the FPL Team Selector (`FPL Team Selector/test3.py`, with
`FPL Team Selector/main.py` as an earlier variant of the same pipeline).

The Python program is embedded shallowly:
* player / team / fixture records become Lean structures with exact rational
  (`ℚ`) fields in place of Python floats;
* the expected-points computation `calculate_expected_points` becomes a pure
  function producing the association list that models the Python dict;
* the two PuLP optimizations are embedded by their constraint systems: the
  external CBC solver is modelled as an oracle returning either an assignment
  of the binary decision variables (given as the list of chosen player ids)
  or a non-`Optimal` status (`none`); every theorem about solver output
  quantifies over the oracle;
* the formation loop of `optimize_lineup`, the captain/vice selection
  (`max` and Python's stable descending `sorted`) and the chip handling are
  embedded structurally, one Lean definition per Python expression.
-/

namespace FPL

/-- A team record from the bootstrap feed: `id` and `strength`. -/
structure Team where
  id : ℕ
  strength : ℚ
deriving DecidableEq, Repr

/-- One entry of `team_fixtures[team_id]` as built by `calculate_team_fixtures`:
opponent id, difficulty for this side, and the home flag. -/
structure Fixture where
  opp_id : ℕ
  diff : ℚ
  home : Bool
deriving DecidableEq, Repr

/-- A player record from the bootstrap feed, restricted to the fields the
optimizer reads.  `chance` is `chance_of_playing_next_round`, which the feed
may supply as `null` (modelled by `none`).  `now_cost` is in tenths of a
currency unit, as in the feed. -/
structure Player where
  id : ℕ
  web_name : String
  element_type : ℕ
  team : ℕ
  now_cost : ℕ
  form : ℚ
  points_per_game : ℚ
  ict_index : ℚ
  chance : Option ℚ
deriving DecidableEq, Repr

/-- Source: `avg_strength = sum(t['strength'] for t in teams) / len(teams)`. -/
def avgStrength (teams : List Team) : ℚ :=
  (teams.map Team.strength).sum / teams.length

/-- Source: `team_strength.get(opp_id, avg_strength)`: the strength of the team with
the given id, defaulting to `d` when the id is not present. -/
def teamStrengthD (teams : List Team) (tid : ℕ) (d : ℚ) : ℚ :=
  match teams.find? (fun t => t.id == tid) with
  | some t => t.strength
  | none => d

/-- Round half to even on integers scaled from a rational, as Python's
built-in `round` does on the exact value. -/
def roundHalfEven (q : ℚ) : ℤ :=
  if q - ⌊q⌋ < 1/2 then ⌊q⌋
  else if 1/2 < q - ⌊q⌋ then ⌊q⌋ + 1
  else if Even ⌊q⌋ then ⌊q⌋ else ⌊q⌋ + 1

/-- Source: `round(x, 2)`. -/
def round2 (q : ℚ) : ℚ := (roundHalfEven (q * 100) : ℚ) / 100

/-- Source: `fix_exp = base * diff_factor * home_bonus * strength_factor * (1 + ict_boost)`
with `diff_factor = (6 - fix['diff']) / 5.0`, `home_bonus = 1.2 if fix['home']
else 0.9` and `strength_factor = avg_strength / opp_strength`. -/
def fixContribution (base ictBoost avg : ℚ) (teams : List Team) (fix : Fixture) : ℚ :=
  base * (((6 : ℚ) - fix.diff) / 5) * (if fix.home then (1.2 : ℚ) else 0.9) *
    (avg / teamStrengthD teams fix.opp_id avg) * (1 + ictBoost)

/-- The fixture loop of `calculate_expected_points`: the sum of `fix_exp`
over the player's club fixtures, before the availability factor. -/
def rawExp (teams : List Team) (p : Player) (fixes : List Fixture) : ℚ :=
  ((fixes.map (fixContribution (p.form * 0.6 + p.points_per_game * 0.4)
      (p.ict_index / 100 * 0.2) (avgStrength teams) teams)).sum)

/-- Source: `chance_factor`: `float(chance) / 100.0`, where a `None` value raises and
is caught, setting the factor to `1.0`. -/
def chanceFactor (c : Option ℚ) : ℚ :=
  match c with
  | none => 1
  | some q => q / 100

/-- The body of the player loop in `calculate_expected_points`: skip the
player when the club has no fixtures or when
`chance_of_playing_next_round == 0`; otherwise produce the dict entry
`expected_points[player['id']] = round(exp * chance_factor, 2)`. -/
def epEntry (teams : List Team) (team_fixtures : ℕ → List Fixture) (p : Player) :
    Option (ℕ × ℚ) :=
  if (team_fixtures p.team).isEmpty then none
  else if p.chance = some 0 then none
  else some (p.id, round2 (rawExp teams p (team_fixtures p.team) * chanceFactor p.chance))

/-- Source: `calculate_expected_points`: the resulting `expected_points` dict as an
association list, in player order.  `team_fixtures` is the dict lookup
`team_fixtures.get(team_id, [])`. -/
def calculate_expected_points (teams : List Team) (team_fixtures : ℕ → List Fixture)
    (players : List Player) : List (ℕ × ℚ) :=
  players.filterMap (epEntry teams team_fixtures)

/-- Source: `expected_points[i]` as an optional lookup. -/
def epLookup (m : List (ℕ × ℚ)) (i : ℕ) : Option ℚ :=
  (m.find? (fun e => e.1 == i)).map Prod.snd

/-- Source: `avail_players = [p for p in players if p['id'] in expected_points]`. -/
def avail_players (players : List Player) (m : List (ℕ × ℚ)) : List Player :=
  players.filter (fun p => (epLookup m p.id).isSome)

/-- The expected-points estimate exactly as the specification sentence states
it: `round(Σ_fixtures (0.6·form + 0.4·ppg) · ((6 − difficulty)/5) ·
(1.2 if home else 0.9) · (avg strength ÷ opponent strength) ·
(1 + ict/100·0.2) × availability/100, 2)`, with a `null` availability read
as 100. -/
def claimEstimate (teams : List Team) (team_fixtures : ℕ → List Fixture) (p : Player) : ℚ :=
  round2 ((((team_fixtures p.team).map (fun fix =>
      ((0.6 : ℚ) * p.form + 0.4 * p.points_per_game) * (((6 : ℚ) - fix.diff) / 5) *
        (if fix.home then (1.2 : ℚ) else 0.9) *
        (avgStrength teams / teamStrengthD teams fix.opp_id (avgStrength teams)) *
        (1 + p.ict_index / 100 * 0.2))).sum) * (p.chance.getD 100 / 100))

/-! ### Squad Selector (`optimize_squad`)

An assignment of the binary PuLP variables is modelled by the list of player
ids whose variable is 1; `squadOf` is the extraction
`selected = [p for p in avail_players if select[p['id']].value() == 1]`. -/

/-- The command-line chip choices. -/
inductive Chip where
  | wildcard
  | free_hit
  | bench_boost
  | triple_captain
deriving DecidableEq, Repr

/-- The players whose binary variable is set. -/
def squadOf (avail : List Player) (ids : List ℕ) : List Player :=
  avail.filter (fun p => decide (p.id ∈ ids))

/-- Source: `sum(p['now_cost'] / 10.0 for p in l)`. -/
def selCost (l : List Player) : ℚ :=
  (l.map (fun p => (p.now_cost : ℚ) / 10)).sum

/-- Number of players of `l` with the given `element_type`. -/
def posCount (l : List Player) (pos : ℕ) : ℕ :=
  (l.filter (fun p => decide (p.element_type = pos))).length

/-- Number of players of `l` belonging to the given club. -/
def clubCount (l : List Player) (tid : ℕ) : ℕ :=
  (l.filter (fun p => decide (p.team = tid))).length

/-- The constraint system `optimize_squad` submits in full-rebuild mode (no
current squad, or a wildcard/free-hit chip): squad size 15, total cost at
most 100.0, position counts `{1: 2, 2: 5, 3: 5, 4: 3}`, and at most 3
players per club for each `team_id in range(1, 21)`. -/
def fullSquadFeasible (avail : List Player) (ids : List ℕ) : Prop :=
  (squadOf avail ids).length = 15 ∧
  selCost (squadOf avail ids) ≤ 100 ∧
  posCount (squadOf avail ids) 1 = 2 ∧
  posCount (squadOf avail ids) 2 = 5 ∧
  posCount (squadOf avail ids) 3 = 5 ∧
  posCount (squadOf avail ids) 4 = 3 ∧
  ∀ tid ∈ List.range 21, 1 ≤ tid → clubCount (squadOf avail ids) tid ≤ 3

instance (avail : List Player) (ids : List ℕ) : Decidable (fullSquadFeasible avail ids) := by
  unfold fullSquadFeasible
  infer_instance

/-- The value `optimize_squad` returns on a solved full-rebuild problem:
`(selected, total_cost, squad_expected)`. -/
def optimize_squad_result (avail : List Player) (epf : ℕ → ℚ) (ids : List ℕ) :
    List Player × ℚ × ℚ :=
  (squadOf avail ids, selCost (squadOf avail ids),
    ((squadOf avail ids).map (fun p => epf p.id)).sum)

/-- The status check at the end of `optimize_squad`: a non-`Optimal` solver
status (`none`) raises `ValueError("No optimal squad.")`, an `Optimal`
status returns the extracted squad. -/
def optimize_squad_outcome (avail : List Player) (epf : ℕ → ℚ)
    (res : Option (List ℕ)) : Except String (List Player × ℚ × ℚ) :=
  match res with
  | none => Except.error "No optimal squad."
  | some ids => Except.ok (optimize_squad_result avail epf ids)

/-- Whether `optimize_squad` produced a squad (rather than raising). -/
def isOkOutcome : Except String (List Player × ℚ × ℚ) → Bool
  | Except.ok _ => true
  | Except.error _ => false

/-! Transfer mode.  `keeps` (resp. `buys`) lists the current-squad (resp.
candidate) ids whose `Keep` (resp. `Buy`) variable is 1, and `extra` is the
value of the integer variable `ExtraTransfers`. -/

/-- Kept current-squad players. -/
def keptList (cs : List Player) (keeps : List ℕ) : List Player :=
  cs.filter (fun p => decide (p.id ∈ keeps))

/-- Transferred-out current-squad players (the `1 - keep` terms). -/
def soldList (cs : List Player) (keeps : List ℕ) : List Player :=
  cs.filter (fun p => decide (p.id ∉ keeps))

/-- Source: `[p for p in avail_players if p not in current_squad_players]`. -/
def candidates (avail cs : List Player) : List Player :=
  avail.filter (fun p => decide (p ∉ cs))

/-- Bought players among the candidates. -/
def boughtList (avail cs : List Player) (buys : List ℕ) : List Player :=
  (candidates avail cs).filter (fun p => decide (p.id ∈ buys))

/-- Source: `sold_value`: the value freed by the transferred-out players. -/
def soldValue (cs : List Player) (keeps : List ℕ) : ℚ :=
  ((soldList cs keeps).map (fun p => (p.now_cost : ℚ) / 10)).sum

/-- Source: `buy_cost`: the total spend on bought players. -/
def buyCost (avail cs : List Player) (buys : List ℕ) : ℚ :=
  ((boughtList avail cs buys).map (fun p => (p.now_cost : ℚ) / 10)).sum

/-- The constraint system `optimize_squad` submits in transfer mode (current
squad present, no wildcard/free-hit): kept + bought = 15 players, sells equal
buys, buy cost bounded by sold value, transfers out bounded by
`free_transfers + extra`, and the same position and per-club quotas over
kept + bought. -/
def transferFeasible (avail cs : List Player) (free : ℕ) (keeps buys : List ℕ)
    (extra : ℕ) : Prop :=
  (keptList cs keeps).length + (boughtList avail cs buys).length = 15 ∧
  (soldList cs keeps).length = (boughtList avail cs buys).length ∧
  buyCost avail cs buys ≤ soldValue cs keeps ∧
  (soldList cs keeps).length ≤ free + extra ∧
  posCount (keptList cs keeps ++ boughtList avail cs buys) 1 = 2 ∧
  posCount (keptList cs keeps ++ boughtList avail cs buys) 2 = 5 ∧
  posCount (keptList cs keeps ++ boughtList avail cs buys) 3 = 5 ∧
  posCount (keptList cs keeps ++ boughtList avail cs buys) 4 = 3 ∧
  ∀ tid ∈ List.range 21, 1 ≤ tid →
    clubCount (keptList cs keeps ++ boughtList avail cs buys) tid ≤ 3

instance (avail cs : List Player) (free : ℕ) (keeps buys : List ℕ) (extra : ℕ) :
    Decidable (transferFeasible avail cs free keeps buys extra) := by
  unfold transferFeasible
  infer_instance

/-- The transfer-mode objective: kept expected points plus bought expected
points minus `4 * extra_transfers`. -/
def transferObjective (epf : ℕ → ℚ) (avail cs : List Player) (keeps buys : List ℕ)
    (extra : ℕ) : ℚ :=
  ((keptList cs keeps).map (fun p => epf p.id)).sum +
    ((boughtList avail cs buys).map (fun p => epf p.id)).sum - 4 * extra

/-! ### Lineup Selector (`optimize_lineup`)

Python's `sorted(..., key=..., reverse=True)` is a stable descending sort;
it coincides with `List.insertionSort` under the relation
`fun a b => key b ≤ key a`.  Python's `max(..., key=...)` returns the first
element attaining the maximal key; it is embedded as a left fold keeping the
current element on ties. -/

/-- The relation realising Python's stable descending sort by expected
points. -/
def epGE (epf : ℕ → ℚ) (a b : Player) : Prop := epf b.id ≤ epf a.id

instance (epf : ℕ → ℚ) : DecidableRel (epGE epf) := fun a b =>
  inferInstanceAs (Decidable (epf b.id ≤ epf a.id))

/-- Source: `sorted(lineup, key=lambda p: p['expected_points'], reverse=True)`. -/
def sortPlayersDesc (epf : ℕ → ℚ) (l : List Player) : List Player :=
  List.insertionSort (epGE epf) l

/-- Source: `sorted([p['expected_points'] for p in lineup], reverse=True)`. -/
def sortedExps (epf : ℕ → ℚ) (l : List Player) : List ℚ :=
  List.insertionSort (fun a b : ℚ => b ≤ a) (l.map (fun p => epf p.id))

/-- Source: `max(lineup, key=lambda p: p['expected_points'])`: first maximal element
(`none` on the empty list, where Python raises). -/
def pyMax (epf : ℕ → ℚ) : List Player → Option Player
  | [] => none
  | x :: xs => some (xs.foldl (fun best p => if epf best.id < epf p.id then p else best) x)

/-- Source: `best_vice = sorted(lineup, key=..., reverse=True)[1] if len(lineup) > 1
else None`. -/
def viceOf (epf : ℕ → ℚ) (l : List Player) : Option Player :=
  (sortPlayersDesc epf l)[1]?

/-- The fixed formation enumeration of `optimize_lineup`. -/
def formations : List (ℕ × ℕ × ℕ) :=
  [(3, 5, 2), (3, 4, 3), (4, 4, 2), (4, 3, 3), (4, 5, 1), (5, 4, 1), (5, 3, 2)]

/-- Source: `lineup = [p for p in selected if select2[p['id']].value() == 1]`. -/
def lineupOf (selected : List Player) (ids : List ℕ) : List Player :=
  selected.filter (fun p => decide (p.id ∈ ids))

/-- The constraint system of the per-formation lineup optimization: 11
players from the squad, exactly 1 goalkeeper, and defender/midfielder/forward
counts equal to the formation triple. -/
def lineupFeasible (selected : List Player) (f : ℕ × ℕ × ℕ) (ids : List ℕ) : Prop :=
  (lineupOf selected ids).length = 11 ∧
  posCount (lineupOf selected ids) 1 = 1 ∧
  posCount (lineupOf selected ids) 2 = f.1 ∧
  posCount (lineupOf selected ids) 3 = f.2.1 ∧
  posCount (lineupOf selected ids) 4 = f.2.2

instance (selected : List Player) (f : ℕ × ℕ × ℕ) (ids : List ℕ) :
    Decidable (lineupFeasible selected f ids) := by
  unfold lineupFeasible
  infer_instance

/-- Source: `lineup_sum = sum(p['expected_points'] for p in lineup)`. -/
def lineupEpSum (epf : ℕ → ℚ) (l : List Player) : ℚ :=
  (l.map (fun p => epf p.id)).sum

/-- Source: `cap_bonus = exps[0] * (2 if chip != 'triple_captain' else 3) if exps
else 0`. -/
def capBonus (chip : Option Chip) (exps : List ℚ) : ℚ :=
  match exps with
  | [] => 0
  | e :: _ => e * (if chip ≠ some Chip.triple_captain then 2 else 3)

/-- Source: `sum(p['expected_points'] for p in selected if p not in lineup)`. -/
def benchSum (epf : ℕ → ℚ) (selected lineup : List Player) : ℚ :=
  ((selected.filter (fun p => decide (p ∉ lineup))).map (fun p => epf p.id)).sum

/-- Source: `proj_total`: lineup sum plus captain bonus, plus the bench sum when the
bench-boost chip is active. -/
def projTotal (chip : Option Chip) (epf : ℕ → ℚ) (selected lineup : List Player) : ℚ :=
  lineupEpSum epf lineup + capBonus chip (sortedExps epf lineup) +
    (if chip = some Chip.bench_boost then benchSum epf selected lineup else 0)

/-- The running best of the formation loop:
`(best_lineup, best_form, best_proj, best_captain, best_vice)`. -/
structure LineupBest where
  lineup : List Player
  formation : Option (ℕ × ℕ × ℕ)
  proj : ℚ
  captain : Option Player
  vice : Option Player
deriving DecidableEq, Repr

/-- The initial accumulator of the formation loop. -/
def lineupInit : LineupBest := ⟨[], none, 0, none, none⟩

/-- One iteration of the formation loop: skip on a non-`Optimal` status,
otherwise extract the lineup, compute the projected total and take over the
best when it strictly improves. -/
def stepLineup (chip : Option Chip) (epf : ℕ → ℚ) (selected : List Player)
    (best : LineupBest) (f : ℕ × ℕ × ℕ) (res : Option (List ℕ)) : LineupBest :=
  match res with
  | none => best
  | some ids =>
    if best.proj < projTotal chip epf selected (lineupOf selected ids) then
      { lineup := lineupOf selected ids
        formation := some f
        proj := projTotal chip epf selected (lineupOf selected ids)
        captain := pyMax epf (lineupOf selected ids)
        vice := viceOf epf (lineupOf selected ids) }
    else best

/-- Source: `optimize_lineup`: fold the formation loop over the fixed enumeration,
with the per-formation solver modelled by the oracle `solve`. -/
def optimize_lineup (selected : List Player) (epf : ℕ → ℚ) (chip : Option Chip)
    (solve : ℕ × ℕ × ℕ → Option (List ℕ)) : LineupBest :=
  formations.foldl (fun best f => stepLineup chip epf selected best f (solve f)) lineupInit

/-- The projected totals of the formations the solver solved, in enumeration
order, paired with their formation. -/
def solvedProjs (selected : List Player) (epf : ℕ → ℚ) (chip : Option Chip)
    (solve : ℕ × ℕ × ℕ → Option (List ℕ)) : List ((ℕ × ℕ × ℕ) × ℚ) :=
  formations.filterMap (fun f => (solve f).map (fun ids =>
    (f, projTotal chip epf selected (lineupOf selected ids))))

/-- The winning projected total of the loop: the maximum of the solved
formations' totals and of the initial best `0`. -/
def bestProjValue (l : List ((ℕ × ℕ × ℕ) × ℚ)) (init : ℚ) : ℚ :=
  l.foldl (fun m e => max m e.2) init

/-- The formation loop restricted to an arbitrary suffix of the enumeration,
for induction. -/
def lineupLoop (chip : Option Chip) (epf : ℕ → ℚ) (selected : List Player)
    (solve : ℕ × ℕ × ℕ → Option (List ℕ)) (L : List (ℕ × ℕ × ℕ))
    (acc : LineupBest) : LineupBest :=
  L.foldl (fun best f => stepLineup chip epf selected best f (solve f)) acc

/-- The solved projected totals of an arbitrary suffix of the enumeration. -/
def loopEntries (chip : Option Chip) (epf : ℕ → ℚ) (selected : List Player)
    (solve : ℕ × ℕ × ℕ → Option (List ℕ)) (L : List (ℕ × ℕ × ℕ)) :
    List ((ℕ × ℕ × ℕ) × ℚ) :=
  L.filterMap (fun f => (solve f).map (fun ids =>
    (f, projTotal chip epf selected (lineupOf selected ids))))

/-- What is known of the loop accumulator: it is either the untouched initial
value or the faithful record of some solved formation. -/
def lineupInvariant (chip : Option Chip) (epf : ℕ → ℚ) (selected : List Player)
    (solve : ℕ × ℕ × ℕ → Option (List ℕ)) (b : LineupBest) : Prop :=
  b = lineupInit ∨
  ∃ f ids, f ∈ formations ∧ solve f = some ids ∧
    b.lineup = lineupOf selected ids ∧
    b.proj = projTotal chip epf selected b.lineup ∧
    b.formation = some f ∧
    b.captain = pyMax epf b.lineup ∧
    b.vice = viceOf epf b.lineup

/-! ### Persistence (`load_squad`, `save_squad`, end of `main`)

The snapshot file is modelled by its read outcome: `none` – the file does
not exist; `some none` – it exists but `json.load` raises
`JSONDecodeError`; `some (some sq)` – it parses.  A write is modelled by
whether it succeeds; `save_squad` catches every exception and only logs. -/

/-- One record of the persisted snapshot, as `save_squad` projects it. -/
structure SavedPlayer where
  id : ℕ
  web_name : String
  element_type : ℕ
  team : ℕ
deriving DecidableEq, Repr

/-- Source: `save_squad`'s projection of a selected player. -/
def toSaved (p : Player) : SavedPlayer :=
  ⟨p.id, p.web_name, p.element_type, p.team⟩

/-- Source: `load_squad`: missing file or a JSON decode error yield the empty
squad (the decode error additionally being logged); a parsed file yields its
contents. -/
def load_squad : Option (Option (List SavedPlayer)) → List SavedPlayer
  | none => []
  | some none => []
  | some (some sq) => sq

/-- Source: `save_squad`: on success the projected snapshot is written; on failure
the error is logged and swallowed.  Returns (written snapshot, log lines). -/
def save_squad (writeOk : Bool) (selected : List Player) :
    Option (List SavedPlayer) × List String :=
  if writeOk then (some (selected.map toSaved), [])
  else (none, ["Error saving squad"])

/-- The mapping of the loaded snapshot onto current player records at the
start of `optimize_squad`: each entry is matched by id against the available
players, unmatched entries are skipped. -/
def matchCurrent (avail : List Player) (cs : List SavedPlayer) : List Player :=
  cs.filterMap (fun sp => avail.find? (fun p => p.id == sp.id))

/-- The branch condition `if current_squad_players and chip not in
['wildcard', 'free_hit']` selecting transfer mode over full-rebuild mode. -/
def usesTransferMode (csp : List Player) (chip : Option Chip) : Bool :=
  !csp.isEmpty && !(chip == some Chip.wildcard || chip == some Chip.free_hit)

/-- The tail of `main`: `save_squad(selected)` followed by
`print_output(...)`, modelled as (log lines, reported data).  The reported
data is exactly the optimization output, whatever the write outcome. -/
def finishRun (writeOk : Bool) (selected : List Player) (total_cost squad_expected : ℚ)
    (best : LineupBest) :
    List String × (List Player × ℚ × ℚ × LineupBest) :=
  ((save_squad writeOk selected).2, (selected, total_cost, squad_expected, best))

/-! ### Concrete data used by witnesses and counterexamples. -/

/-- A player with the given id, position, club and cost (in tenths), with
neutral statistics. -/
def mkPlayer (i etype tid cost : ℕ) : Player :=
  ⟨i, "p", etype, tid, cost, 0, 0, 0, some 100⟩

/-- A 15-player squad: 2 GK, 5 DEF, 5 MID, 3 FWD over clubs 1–5, three per
club, each costing 5.0. -/
def squadA : List Player :=
  [mkPlayer 1 1 1 50, mkPlayer 2 1 2 50,
   mkPlayer 3 2 1 50, mkPlayer 4 2 2 50, mkPlayer 5 2 3 50, mkPlayer 6 2 3 50,
   mkPlayer 7 2 4 50,
   mkPlayer 8 3 1 50, mkPlayer 9 3 2 50, mkPlayer 10 3 3 50, mkPlayer 11 3 4 50,
   mkPlayer 12 3 5 50,
   mkPlayer 13 4 4 50, mkPlayer 14 4 5 50, mkPlayer 15 4 5 50]

/-- Ids of `squadA`. -/
def idsA : List ℕ := [1, 2, 3, 4, 5, 6, 7, 8, 9, 10, 11, 12, 13, 14, 15]

/-- Distinct expected points: player `i` scores `16 - i`. -/
def epfA : ℕ → ℚ := fun i => (16 : ℚ) - i

/-- Zero expected points for everyone. -/
def epfZ : ℕ → ℚ := fun _ => 0

/-- A per-formation solver for `squadA` returning a feasible optimal lineup
for each enumerated formation. -/
def solveA : ℕ × ℕ × ℕ → Option (List ℕ) := fun f =>
  if f = (3, 5, 2) then some [1, 3, 4, 5, 8, 9, 10, 11, 12, 13, 14]
  else if f = (3, 4, 3) then some [1, 3, 4, 5, 8, 9, 10, 11, 13, 14, 15]
  else if f = (4, 4, 2) then some [1, 3, 4, 5, 6, 8, 9, 10, 11, 13, 14]
  else if f = (4, 3, 3) then some [1, 3, 4, 5, 6, 8, 9, 10, 13, 14, 15]
  else if f = (4, 5, 1) then some [1, 3, 4, 5, 6, 8, 9, 10, 11, 12, 13]
  else if f = (5, 4, 1) then some [1, 3, 4, 5, 6, 7, 8, 9, 10, 11, 13]
  else if f = (5, 3, 2) then some [1, 3, 4, 5, 6, 7, 8, 9, 10, 13, 14]
  else none

/-- Transfer-candidate pool: `squadA` plus four buyable players at clubs
6 and 7. -/
def availT : List Player :=
  squadA ++ [mkPlayer 21 2 6 50, mkPlayer 22 2 6 50, mkPlayer 23 3 7 50,
    mkPlayer 24 4 7 50]

/-- Keep 11 of the current squad (selling 6, 7, 10 and 13). -/
def keepsT : List ℕ := [1, 2, 3, 4, 5, 8, 9, 11, 12, 14, 15]

/-- Buy the four new players. -/
def buysT : List ℕ := [21, 22, 23, 24]

/-- Uniform expected points for the transfer scenario. -/
def epfT : ℕ → ℚ := fun _ => 1

/-- An expensive squad: same shape as `squadA` but each player costs
100.0, total 1500.0. -/
def squadB : List Player :=
  [mkPlayer 1 1 1 1000, mkPlayer 2 1 2 1000,
   mkPlayer 3 2 1 1000, mkPlayer 4 2 2 1000, mkPlayer 5 2 3 1000,
   mkPlayer 6 2 3 1000, mkPlayer 7 2 4 1000,
   mkPlayer 8 3 1 1000, mkPlayer 9 3 2 1000, mkPlayer 10 3 3 1000,
   mkPlayer 11 3 4 1000, mkPlayer 12 3 5 1000,
   mkPlayer 13 4 4 1000, mkPlayer 14 4 5 1000, mkPlayer 15 4 5 1000]

/-- The optimal 5-4-1 lineup of `squadA` under `epfA`, in squad order. -/
def lineupA541 : List Player :=
  [mkPlayer 1 1 1 50, mkPlayer 3 2 1 50, mkPlayer 4 2 2 50, mkPlayer 5 2 3 50,
   mkPlayer 6 2 3 50, mkPlayer 7 2 4 50, mkPlayer 8 3 1 50, mkPlayer 9 3 2 50,
   mkPlayer 10 3 3 50, mkPlayer 11 3 4 50, mkPlayer 13 4 4 50]

/-- Feed data for the expected-points witnesses: two clubs of strengths 4
and 5 and one home fixture for club 1. -/
def teamsW : List Team := [⟨1, 4⟩, ⟨2, 5⟩]

/-- Fixtures by club for the expected-points witnesses. -/
def tfW : ℕ → List Fixture := fun tid => if tid = 1 then [⟨2, 3, true⟩] else []

/-- An available player of club 1. -/
def pW : Player := ⟨10, "w", 3, 1, 80, 6, 5, 10, some 75⟩

/-- A player of club 1 ruled out for the round. -/
def p0W : Player := ⟨11, "x", 3, 1, 80, 6, 5, 10, some 0⟩

/-- The players of the expected-points witnesses. -/
def playersW : List Player := [pW, p0W]

theorem epEntry_id {teams tf} {p : Player} {e : ℕ × ℚ}
    (h : epEntry teams tf p = some e) : e.1 = p.id := by
  unfold epEntry at h
  split at h
  · exact absurd h (by simp)
  · split at h
    · exact absurd h (by simp)
    · obtain rfl := Option.some.inj h
      rfl

/-- Claim C4: for every player whose club has at least one fixture this round
and whose availability is not 0, the expected-points dict contains for that
player exactly the value
`round(Σ_fixtures (0.6·form + 0.4·ppg)·((6−difficulty)/5)·(1.2 if home else
0.9)·(avg strength ÷ opponent strength)·(1 + ict/100·0.2) × availability/100, 2)`,
rounding to two decimal places happening only at this point. -/
theorem expected_points_formula (teams : List Team) (tf : ℕ → List Fixture)
    (players : List Player) (p : Player) (hp : p ∈ players)
    (hfix : tf p.team ≠ []) (hch : p.chance ≠ some 0) :
    (p.id, claimEstimate teams tf p) ∈ calculate_expected_points teams tf players := by
  rw [calculate_expected_points, List.mem_filterMap]
  refine ⟨p, hp, ?_⟩
  rw [epEntry, if_neg (by simpa using hfix), if_neg hch]
  have hsum : rawExp teams p (tf p.team) =
      ((tf p.team).map (fun fix =>
        ((0.6 : ℚ) * p.form + 0.4 * p.points_per_game) * (((6 : ℚ) - fix.diff) / 5) *
          (if fix.home then (1.2 : ℚ) else 0.9) *
          (avgStrength teams / teamStrengthD teams fix.opp_id (avgStrength teams)) *
          (1 + p.ict_index / 100 * 0.2))).sum := by
    unfold rawExp
    refine congrArg List.sum (List.map_congr_left ?_)
    intro fix _
    unfold fixContribution
    ring
  have hcf : chanceFactor p.chance = p.chance.getD 100 / 100 := by
    cases p.chance with
    | none => norm_num [chanceFactor]
    | some c => rfl
  rw [claimEstimate, ← hsum, ← hcf]

/-- Claim C6: a player whose availability is exactly 0, or whose club has no
fixtures this round, gets no expected-points entry and is excluded from the
optimization pool entirely; a player with a `null` availability is treated
exactly as one with availability 100. -/
theorem unavailable_players_excluded (teams : List Team) (tf : ℕ → List Fixture)
    (players : List Player) (p : Player) (hp : p ∈ players)
    (hnd : (players.map Player.id).Nodup) :
    ((p.chance = some 0 ∨ tf p.team = []) →
      p.id ∉ (calculate_expected_points teams tf players).map Prod.fst ∧
      p ∉ avail_players players (calculate_expected_points teams tf players)) ∧
    (p.chance = none →
      epEntry teams tf p = epEntry teams tf { p with chance := some 100 }) := by
  constructor
  · intro hbad
    have hnone : epEntry teams tf p = none := by
      rcases hbad with h0 | hf
      · simp [epEntry, h0]
      · simp [epEntry, hf]
    have hid : p.id ∉ (calculate_expected_points teams tf players).map Prod.fst := by
      intro hmem
      rw [List.mem_map] at hmem
      obtain ⟨e, he, hefst⟩ := hmem
      rw [calculate_expected_points, List.mem_filterMap] at he
      obtain ⟨q, hq, hqe⟩ := he
      have : q = p := by
        refine List.inj_on_of_nodup_map hnd hq hp ?_
        rw [epEntry_id hqe] at hefst
        exact hefst
      rw [this, hnone] at hqe
      exact Option.noConfusion hqe
    refine ⟨hid, fun hmem => ?_⟩
    rw [avail_players, List.mem_filter] at hmem
    have h2 := hmem.2
    rcases hfind : (calculate_expected_points teams tf players).find? (fun x => x.1 == p.id)
      with _ | e
    · rw [epLookup, hfind] at h2
      simp at h2
    · have he1 : e.1 = p.id := by simpa using List.find?_some hfind
      exact hid (List.mem_map.mpr ⟨e, List.mem_of_find?_eq_some hfind, he1⟩)
  · intro hnull
    rw [epEntry, epEntry]
    simp only [hnull]
    split
    · rfl
    · rw [if_neg (by simp), if_neg (by norm_num)]
      have : chanceFactor none = chanceFactor (some 100) := by
        norm_num [chanceFactor]
      rw [show ({ p with chance := some 100 } : Player).team = p.team from rfl]
      rw [show rawExp teams { p with chance := some 100 } (tf p.team) =
        rawExp teams p (tf p.team) from rfl]
      rw [this]

/-- Claim C7: a non-`Optimal` solver status makes `optimize_squad` fail with
a hard error and never yields a squad, while an `Optimal` status always
yields the extracted squad. -/
theorem squad_outcome_hard_failure (avail : List Player) (epf : ℕ → ℚ) :
    (optimize_squad_outcome avail epf none = Except.error "No optimal squad." ∧
      isOkOutcome (optimize_squad_outcome avail epf none) = false) ∧
    ∀ ids, optimize_squad_outcome avail epf (some ids) =
        Except.ok (optimize_squad_result avail epf ids) ∧
      isOkOutcome (optimize_squad_outcome avail epf (some ids)) = true :=
  ⟨⟨rfl, rfl⟩, fun _ => ⟨rfl, rfl⟩⟩

/-- Claim C2: every squad extracted from a solver assignment satisfying the
full-rebuild constraints has exactly 15 players, costs at most 100.0, has
exactly 2/5/5/3 players per position, and takes at most 3 players from every
club (all clubs, given that player club ids range over 1..20 as in the
feed). -/
theorem full_rebuild_squad_invariants (avail : List Player) (ids : List ℕ)
    (epf : ℕ → ℚ)
    (hfeas : fullSquadFeasible avail ids)
    (hteam : ∀ p ∈ avail, 1 ≤ p.team ∧ p.team ≤ 20) :
    (optimize_squad_result avail epf ids).1.length = 15 ∧
    selCost (optimize_squad_result avail epf ids).1 ≤ 100 ∧
    posCount (optimize_squad_result avail epf ids).1 1 = 2 ∧
    posCount (optimize_squad_result avail epf ids).1 2 = 5 ∧
    posCount (optimize_squad_result avail epf ids).1 3 = 5 ∧
    posCount (optimize_squad_result avail epf ids).1 4 = 3 ∧
    ∀ tid : ℕ, clubCount (optimize_squad_result avail epf ids).1 tid ≤ 3 := by
  obtain ⟨h15, hcost, h1, h2, h3, h4, hclub⟩ := hfeas
  refine ⟨h15, hcost, h1, h2, h3, h4, fun tid => ?_⟩
  by_cases hlo : 1 ≤ tid
  · by_cases hhi : tid ≤ 20
    · exact hclub tid (List.mem_range.mpr (by omega)) hlo
    · have hz : clubCount (squadOf avail ids) tid = 0 := by
        rw [clubCount, List.length_eq_zero, List.filter_eq_nil_iff]
        intro p hpmem
        have hpa : p ∈ avail := List.mem_of_mem_filter hpmem
        have := (hteam p hpa).2
        simp only [decide_eq_true_eq]
        omega
      simp [optimize_squad_result, hz]
  · have hz : clubCount (squadOf avail ids) tid = 0 := by
      rw [clubCount, List.length_eq_zero, List.filter_eq_nil_iff]
      intro p hpmem
      have hpa : p ∈ avail := List.mem_of_mem_filter hpmem
      have := (hteam p hpa).1
      simp only [decide_eq_true_eq]
      omega
    simp [optimize_squad_result, hz]

theorem optimize_lineup_eq_loop (selected : List Player) (epf : ℕ → ℚ)
    (chip : Option Chip) (solve : ℕ × ℕ × ℕ → Option (List ℕ)) :
    optimize_lineup selected epf chip solve =
      lineupLoop chip epf selected solve formations lineupInit := rfl

theorem solvedProjs_eq_loopEntries (selected : List Player) (epf : ℕ → ℚ)
    (chip : Option Chip) (solve : ℕ × ℕ × ℕ → Option (List ℕ)) :
    solvedProjs selected epf chip solve =
      loopEntries chip epf selected solve formations := rfl

theorem le_bestProjValue (l : List ((ℕ × ℕ × ℕ) × ℚ)) (a : ℚ) :
    a ≤ bestProjValue l a := by
  induction l generalizing a with
  | nil => exact le_refl a
  | cons e l ih =>
    calc a ≤ max a e.2 := le_max_left a e.2
    _ ≤ bestProjValue l (max a e.2) := ih (max a e.2)
    _ = bestProjValue (e :: l) a := rfl

/-- Characterization of the formation loop: its final `best_proj` is the
maximum of the initial value and the solved totals, nothing changes when no
solved total strictly beats the initial value, and when one does the final
`best_form` is the first formation attaining the maximum. -/
theorem lineupLoop_char (chip : Option Chip) (epf : ℕ → ℚ) (selected : List Player)
    (solve : ℕ × ℕ × ℕ → Option (List ℕ)) (L : List (ℕ × ℕ × ℕ)) (acc : LineupBest) :
    (lineupLoop chip epf selected solve L acc).proj =
      bestProjValue (loopEntries chip epf selected solve L) acc.proj ∧
    (bestProjValue (loopEntries chip epf selected solve L) acc.proj = acc.proj →
      lineupLoop chip epf selected solve L acc = acc) ∧
    (acc.proj < bestProjValue (loopEntries chip epf selected solve L) acc.proj →
      (lineupLoop chip epf selected solve L acc).formation =
        ((loopEntries chip epf selected solve L).find? (fun e =>
          decide (e.2 = bestProjValue (loopEntries chip epf selected solve L) acc.proj))).map
            Prod.fst) := by
  induction L generalizing acc with
  | nil =>
    refine ⟨rfl, fun _ => rfl, fun h => absurd h (lt_irrefl _)⟩
  | cons f L ih =>
    rcases hres : solve f with _ | ids
    · have hloop : lineupLoop chip epf selected solve (f :: L) acc =
          lineupLoop chip epf selected solve L acc := by
        simp [lineupLoop, stepLineup, hres]
      have hent : loopEntries chip epf selected solve (f :: L) =
          loopEntries chip epf selected solve L := by
        simp [loopEntries, hres]
      rw [hloop, hent]
      exact ih acc
    · have hent : loopEntries chip epf selected solve (f :: L) =
          (f, projTotal chip epf selected (lineupOf selected ids)) ::
            loopEntries chip epf selected solve L := by
        simp [loopEntries, hres]
      set P := projTotal chip epf selected (lineupOf selected ids) with hP
      by_cases hcmp : acc.proj < P
      · set acc₂ : LineupBest :=
          { lineup := lineupOf selected ids
            formation := some f
            proj := P
            captain := pyMax epf (lineupOf selected ids)
            vice := viceOf epf (lineupOf selected ids) } with hacc₂
        have hloop : lineupLoop chip epf selected solve (f :: L) acc =
            lineupLoop chip epf selected solve L acc₂ := by
          simp [lineupLoop, stepLineup, hres, if_pos hcmp, hacc₂, hP]
        have hm : bestProjValue (loopEntries chip epf selected solve (f :: L)) acc.proj =
            bestProjValue (loopEntries chip epf selected solve L) P := by
          rw [hent]
          show bestProjValue (loopEntries chip epf selected solve L) (max acc.proj P) = _
          rw [max_eq_right (le_of_lt hcmp)]
        obtain ⟨ih1, ih2, ih3⟩ := ih acc₂
        have hP_le : P ≤ bestProjValue (loopEntries chip epf selected solve L) P :=
          le_bestProjValue _ _
        refine ⟨?_, ?_, ?_⟩
        · rw [hloop, hm]
          exact ih1
        · intro habs
          rw [hm] at habs
          have hcontra : acc.proj < acc.proj :=
            lt_of_lt_of_le hcmp (le_trans hP_le (le_of_eq habs))
          exact absurd hcontra (lt_irrefl _)
        · intro _
          rw [hloop, hm, hent]
          by_cases hPm : P = bestProjValue (loopEntries chip epf selected solve L) P
          · rw [List.find?_cons_of_pos _ (by simpa using hPm)]
            have hstay : lineupLoop chip epf selected solve L acc₂ = acc₂ := ih2 hPm.symm
            rw [hstay]
            simp [hacc₂]
          · have hlt : acc₂.proj < bestProjValue (loopEntries chip epf selected solve L)
                acc₂.proj := lt_of_le_of_ne hP_le hPm
            rw [List.find?_cons_of_neg _ (by simpa using hPm)]
            exact ih3 hlt
      · have hloop : lineupLoop chip epf selected solve (f :: L) acc =
            lineupLoop chip epf selected solve L acc := by
          simp [lineupLoop, stepLineup, hres, if_neg hcmp, hP]
        have hm : bestProjValue (loopEntries chip epf selected solve (f :: L)) acc.proj =
            bestProjValue (loopEntries chip epf selected solve L) acc.proj := by
          rw [hent]
          show bestProjValue (loopEntries chip epf selected solve L) (max acc.proj P) = _
          rw [max_eq_left (le_of_not_lt hcmp)]
        obtain ⟨ih1, ih2, ih3⟩ := ih acc
        refine ⟨?_, ?_, ?_⟩
        · rw [hloop, hm]
          exact ih1
        · intro habs
          rw [hm] at habs
          rw [hloop]
          exact ih2 habs
        · intro hlt
          rw [hm] at hlt
          have hPne : ¬ P = bestProjValue (loopEntries chip epf selected solve L) acc.proj := by
            intro habs
            exact absurd (habs ▸ lt_of_le_of_lt (le_of_not_lt hcmp) hlt) (by
              rw [← habs]
              exact lt_irrefl P)
          rw [hloop, hm, hent, List.find?_cons_of_neg _ (by simpa using hPne)]
          exact ih3 hlt

theorem lineupLoop_invariant (chip : Option Chip) (epf : ℕ → ℚ) (selected : List Player)
    (solve : ℕ × ℕ × ℕ → Option (List ℕ)) (L : List (ℕ × ℕ × ℕ))
    (hL : ∀ f ∈ L, f ∈ formations) (acc : LineupBest)
    (hacc : lineupInvariant chip epf selected solve acc) :
    lineupInvariant chip epf selected solve (lineupLoop chip epf selected solve L acc) := by
  induction L generalizing acc with
  | nil => exact hacc
  | cons f L ih =>
    have hf : f ∈ formations := hL f (List.mem_cons_self f L)
    have hL' : ∀ g ∈ L, g ∈ formations := fun g hg => hL g (List.mem_cons_of_mem f hg)
    refine ih hL' (stepLineup chip epf selected acc f (solve f)) ?_
    rcases hres : solve f with _ | ids
    · simpa [stepLineup, hres] using hacc
    · rw [stepLineup]
      split
      · exact Or.inr ⟨f, ids, hf, hres, rfl, rfl, rfl, rfl, rfl⟩
      · exact hacc

theorem optimize_lineup_invariant (selected : List Player) (epf : ℕ → ℚ)
    (chip : Option Chip) (solve : ℕ × ℕ × ℕ → Option (List ℕ)) :
    lineupInvariant chip epf selected solve (optimize_lineup selected epf chip solve) := by
  rw [optimize_lineup_eq_loop]
  exact lineupLoop_invariant chip epf selected solve formations (fun f hf => hf)
    lineupInit (Or.inl rfl)

theorem head?_orderedInsert_cons (r : Player → Player → Prop) [DecidableRel r]
    (a b : Player) (l : List Player) :
    (List.orderedInsert r a (b :: l)).head? = some (if r a b then a else b) := by
  rw [List.orderedInsert]
  split_ifs <;> rfl

/-- Python's `max` with first-wins tie-breaking returns the head of the
stable descending sort. -/
theorem pyMax_eq_head (epf : ℕ → ℚ) (l : List Player) :
    pyMax epf l = (sortPlayersDesc epf l).head? := by
  cases l with
  | nil => rfl
  | cons x xs =>
    show some (xs.foldl (fun best p => if epf best.id < epf p.id then p else best) x) =
      (List.orderedInsert (epGE epf) x (List.insertionSort (epGE epf) xs)).head?
    induction xs generalizing x with
    | nil => rfl
    | cons h t ih =>
      have key : ∀ s : List Player,
          (List.orderedInsert (epGE epf) (if epf x.id < epf h.id then h else x) s).head? =
          (List.orderedInsert (epGE epf) x (List.orderedInsert (epGE epf) h s)).head? := by
        intro s
        cases s with
        | nil =>
          show some (if epf x.id < epf h.id then h else x) =
            (List.orderedInsert (epGE epf) x [h]).head?
          rw [head?_orderedInsert_cons]
          by_cases hc : epf x.id < epf h.id
          · have hr : ¬ epGE epf x h := by
              unfold epGE
              exact not_le.mpr hc
            rw [if_pos hc, if_neg hr]
          · have hr : epGE epf x h := by
              unfold epGE
              exact le_of_not_lt hc
            rw [if_neg hc, if_pos hr]
        | cons z zs =>
          rw [head?_orderedInsert_cons]
          by_cases hhz : epGE epf h z
          · rw [show List.orderedInsert (epGE epf) h (z :: zs) = h :: z :: zs from by
              rw [List.orderedInsert, if_pos hhz]]
            rw [head?_orderedInsert_cons]
            unfold epGE at hhz ⊢
            by_cases hc : epf x.id < epf h.id
            · rw [if_pos hc, if_pos hhz, if_neg (not_le.mpr hc)]
            · rw [if_neg hc]
              rw [if_pos (le_trans hhz (le_of_not_lt hc)), if_pos (le_of_not_lt hc)]
          · rw [show List.orderedInsert (epGE epf) h (z :: zs) =
                z :: List.orderedInsert (epGE epf) h zs from by
              rw [List.orderedInsert, if_neg hhz]]
            rw [head?_orderedInsert_cons]
            unfold epGE at hhz ⊢
            by_cases hc : epf x.id < epf h.id
            · rw [if_pos hc, if_neg hhz, if_neg (by push_neg at hhz ⊢; linarith)]
            · rw [if_neg hc]
      rw [List.foldl_cons, List.insertionSort]
      rw [ih (if epf x.id < epf h.id then h else x)]
      exact key (List.insertionSort (epGE epf) t)

theorem sortPlayersDesc_perm (epf : ℕ → ℚ) (l : List Player) :
    List.Perm (sortPlayersDesc epf l) l :=
  List.perm_insertionSort (epGE epf) l

theorem sortPlayersDesc_sorted (epf : ℕ → ℚ) (l : List Player) :
    List.Sorted (epGE epf) (sortPlayersDesc epf l) := by
  haveI : IsTotal Player (epGE epf) := ⟨fun a b => le_total (epf b.id) (epf a.id)⟩
  haveI : IsTrans Player (epGE epf) := ⟨fun a b c hab hbc => le_trans hbc hab⟩
  exact List.sorted_insertionSort (epGE epf) l

/-- Captain and vice-captain of a duplicate-free list of at least two
players: the first maximal element and the second entry of the stable
descending sort are distinct members dominating everyone else. -/
theorem captain_vice_spec (epf : ℕ → ℚ) (lu : List Player)
    (hlen : 2 ≤ lu.length) (hnd : (lu.map Player.id).Nodup) :
    ∃ c v, pyMax epf lu = some c ∧ viceOf epf lu = some v ∧
      c ∈ lu ∧ v ∈ lu ∧ c.id ≠ v.id ∧
      epf v.id ≤ epf c.id ∧
      (∀ p ∈ lu, epf p.id ≤ epf c.id) ∧
      (∀ p ∈ lu, p.id ≠ c.id → p.id ≠ v.id → epf p.id ≤ epf v.id) := by
  have hperm := sortPlayersDesc_perm epf lu
  have hsorted := sortPlayersDesc_sorted epf lu
  have hlen' : 2 ≤ (sortPlayersDesc epf lu).length := by
    rw [hperm.length_eq]
    exact hlen
  rcases hsp : sortPlayersDesc epf lu with _ | ⟨c, _ | ⟨v, rest⟩⟩
  · rw [hsp] at hlen'
    simp at hlen'
  · rw [hsp] at hlen'
    simp at hlen'
  · rw [hsp] at hperm hsorted
    have hmax : pyMax epf lu = some c := by
      rw [pyMax_eq_head, hsp]
      rfl
    have hvice : viceOf epf lu = some v := by
      rw [viceOf, hsp]
      simp
    have hcmem : c ∈ lu := hperm.subset (List.mem_cons_self c (v :: rest))
    have hvmem : v ∈ lu := hperm.subset (List.mem_cons_of_mem c (List.mem_cons_self v rest))
    have hnd' : ((c :: v :: rest).map Player.id).Nodup :=
      (List.Perm.nodup_iff (hperm.map Player.id)).mpr hnd
    have hcv : c.id ≠ v.id := by
      simp only [List.map_cons, List.nodup_cons, List.mem_cons] at hnd'
      exact fun h => hnd'.1 (Or.inl h)
    rw [List.sorted_cons] at hsorted
    obtain ⟨hchead, hsorted'⟩ := hsorted
    rw [List.sorted_cons] at hsorted'
    obtain ⟨hvhead, _⟩ := hsorted'
    have hvc : epf v.id ≤ epf c.id := hchead v (List.mem_cons_self v rest)
    refine ⟨c, v, hmax, hvice, hcmem, hvmem, hcv, hvc, ?_, ?_⟩
    · intro p hp
      have hp' : p ∈ c :: v :: rest := hperm.mem_iff.mpr hp
      rcases List.mem_cons.mp hp' with rfl | hp''
      · exact le_refl _
      · exact hchead p hp''
    · intro p hp hpc hpv
      have hp' : p ∈ c :: v :: rest := hperm.mem_iff.mpr hp
      rcases List.mem_cons.mp hp' with rfl | hp''
      · exact absurd rfl hpc
      · rcases List.mem_cons.mp hp'' with rfl | hp'''
        · exact absurd rfl hpv
        · exact hvhead p hp'''

theorem bestProjValue_of_le (l : List ((ℕ × ℕ × ℕ) × ℚ)) (a : ℚ)
    (h : ∀ e ∈ l, e.2 ≤ a) : bestProjValue l a = a := by
  induction l with
  | nil => rfl
  | cons e l ih =>
    show bestProjValue l (max a e.2) = a
    rw [max_eq_left (h e (List.mem_cons_self e l))]
    exact ih (fun e' he' => h e' (List.mem_cons_of_mem e he'))

/-- Claim C10: when every solved formation's projected total is at most 0,
the lineup selector returns the untouched initial record: empty lineup, no
formation label, projected total 0, and no captain or vice-captain. -/
theorem all_nonpositive_keeps_empty_lineup (selected : List Player) (epf : ℕ → ℚ)
    (chip : Option Chip) (solve : ℕ × ℕ × ℕ → Option (List ℕ))
    (hnp : ∀ e ∈ solvedProjs selected epf chip solve, e.2 ≤ 0) :
    (optimize_lineup selected epf chip solve).lineup = [] ∧
    (optimize_lineup selected epf chip solve).formation = none ∧
    (optimize_lineup selected epf chip solve).proj = 0 ∧
    (optimize_lineup selected epf chip solve).captain = none ∧
    (optimize_lineup selected epf chip solve).vice = none := by
  obtain ⟨_, h2, _⟩ :=
    lineupLoop_char chip epf selected solve formations lineupInit
  rw [solvedProjs_eq_loopEntries] at hnp
  have hm : bestProjValue (loopEntries chip epf selected solve formations)
      lineupInit.proj = lineupInit.proj :=
    bestProjValue_of_le _ _ (fun e he => hnp e he)
  have hres : optimize_lineup selected epf chip solve = lineupInit := by
    rw [optimize_lineup_eq_loop]
    exact h2 hm
  rw [hres]
  exact ⟨rfl, rfl, rfl, rfl, rfl⟩

/-- Claim C8 (amended): provided some solved formation has a positive
projected total, the lineup selector's winning total is the maximum over the
solved formations, and the winning formation is the first one in enumeration
order attaining that maximum. -/
theorem best_formation_first_max (selected : List Player) (epf : ℕ → ℚ)
    (chip : Option Chip) (solve : ℕ × ℕ × ℕ → Option (List ℕ))
    (hpos : 0 < bestProjValue (solvedProjs selected epf chip solve) 0) :
    (optimize_lineup selected epf chip solve).proj =
      bestProjValue (solvedProjs selected epf chip solve) 0 ∧
    (optimize_lineup selected epf chip solve).formation =
      ((solvedProjs selected epf chip solve).find? (fun e =>
        decide (e.2 = bestProjValue (solvedProjs selected epf chip solve) 0))).map
          Prod.fst := by
  obtain ⟨h1, _, h3⟩ :=
    lineupLoop_char chip epf selected solve formations lineupInit
  rw [solvedProjs_eq_loopEntries, optimize_lineup_eq_loop]
  have hinit : lineupInit.proj = 0 := rfl
  rw [hinit] at h1 h3
  exact ⟨h1, h3 hpos⟩

/-- Claim C1 (amended): with the triple-captain chip active, the winning
projected total equals the lineup's summed expected points plus three times
the top scorer's expected points — the top value is counted four times in
total, not three. -/
theorem triple_captain_projected_total (selected : List Player) (epf : ℕ → ℚ)
    (solve : ℕ × ℕ × ℕ → Option (List ℕ))
    (hwin : (optimize_lineup selected epf (some Chip.triple_captain) solve).formation ≠
      none) :
    (optimize_lineup selected epf (some Chip.triple_captain) solve).proj =
      lineupEpSum epf (optimize_lineup selected epf (some Chip.triple_captain) solve).lineup +
        3 * (sortedExps epf
          (optimize_lineup selected epf (some Chip.triple_captain) solve).lineup).headD 0 := by
  rcases optimize_lineup_invariant selected epf (some Chip.triple_captain) solve with
    hinit | ⟨f, ids, _, _, _, hproj, hform, _, _⟩
  · rw [hinit] at hwin
    exact absurd rfl hwin
  · rw [hproj, projTotal]
    rw [if_neg (by simp)]
    rcases hexp : sortedExps epf
        (optimize_lineup selected epf (some Chip.triple_captain) solve).lineup with _ | ⟨e, es⟩
    · rw [capBonus]
      norm_num
    · rw [capBonus]
      rw [if_neg (by simp)]
      rw [List.headD_cons]
      ring

/-- Claim C5 (amended): whenever the lineup selector actually selects a
formation (winning projected total positive), and the per-formation solver
outputs satisfy the submitted constraints, the returned lineup has exactly
11 members and 1 goalkeeper, its outfield counts match the winning
enumerated formation, and captain and vice-captain are distinct lineup
members dominating all other members' expected points. -/
theorem lineup_selector_invariants (selected : List Player) (epf : ℕ → ℚ)
    (chip : Option Chip) (solve : ℕ × ℕ × ℕ → Option (List ℕ))
    (hfeas : ∀ f ids, solve f = some ids → lineupFeasible selected f ids)
    (hnd : (selected.map Player.id).Nodup)
    (hwin : (optimize_lineup selected epf chip solve).formation ≠ none) :
    (optimize_lineup selected epf chip solve).lineup.length = 11 ∧
    posCount (optimize_lineup selected epf chip solve).lineup 1 = 1 ∧
    (∃ f ∈ formations, (optimize_lineup selected epf chip solve).formation = some f ∧
      posCount (optimize_lineup selected epf chip solve).lineup 2 = f.1 ∧
      posCount (optimize_lineup selected epf chip solve).lineup 3 = f.2.1 ∧
      posCount (optimize_lineup selected epf chip solve).lineup 4 = f.2.2) ∧
    (∃ c v, (optimize_lineup selected epf chip solve).captain = some c ∧
      (optimize_lineup selected epf chip solve).vice = some v ∧
      c ∈ (optimize_lineup selected epf chip solve).lineup ∧
      v ∈ (optimize_lineup selected epf chip solve).lineup ∧
      c.id ≠ v.id ∧
      epf v.id ≤ epf c.id ∧
      (∀ p ∈ (optimize_lineup selected epf chip solve).lineup, epf p.id ≤ epf c.id) ∧
      (∀ p ∈ (optimize_lineup selected epf chip solve).lineup,
        p.id ≠ c.id → p.id ≠ v.id → epf p.id ≤ epf v.id)) := by
  rcases optimize_lineup_invariant selected epf chip solve with
    hinit | ⟨f, ids, hfmem, hres, hlu, _, hform, hcap, hvice⟩
  · rw [hinit] at hwin
    exact absurd rfl hwin
  · obtain ⟨h11, hgk, hd, hm, hf⟩ := hfeas f ids hres
    rw [← hlu] at h11 hgk hd hm hf
    have hndlu : ((optimize_lineup selected epf chip solve).lineup.map Player.id).Nodup := by
      rw [hlu, lineupOf]
      exact hnd.sublist ((List.filter_sublist selected).map Player.id)
    obtain ⟨c, v, hc, hv, hcmem, hvmem, hcv, hvc, hcall, hvall⟩ :=
      captain_vice_spec epf (optimize_lineup selected epf chip solve).lineup
        (by omega) hndlu
    refine ⟨h11, hgk, ⟨f, hfmem, hform, hd, hm, hf⟩, c, v, ?_, ?_,
      hcmem, hvmem, hcv, hvc, hcall, hvall⟩
    · rw [hcap, hc]
    · rw [hvice, hv]

/-- Claim C3: in transfer mode, from any optimal solver assignment the
resulting squad has exactly 15 players, sells equal buys, spend on buys is
bounded by the value freed by sells (no fixed 100.0 cap exists: a feasible
transfer-mode solution of total cost 1500.0 is exhibited), the position and
per-club quotas hold over kept + bought players, and the objective subtracts
exactly 4 points per transfer-out beyond the free-transfer allowance — in
particular 8 points when `free = 2` and 4 players leave. -/
theorem transfer_mode_invariants (avail cs : List Player) (epf : ℕ → ℚ) (free : ℕ)
    (keeps buys : List ℕ) (extra : ℕ)
    (hfeas : transferFeasible avail cs free keeps buys extra)
    (hopt : ∀ e, transferFeasible avail cs free keeps buys e →
      transferObjective epf avail cs keeps buys e ≤
        transferObjective epf avail cs keeps buys extra)
    (hteam : ∀ p ∈ keptList cs keeps ++ boughtList avail cs buys,
      1 ≤ p.team ∧ p.team ≤ 20) :
    (keptList cs keeps ++ boughtList avail cs buys).length = 15 ∧
    (soldList cs keeps).length = (boughtList avail cs buys).length ∧
    buyCost avail cs buys ≤ soldValue cs keeps ∧
    posCount (keptList cs keeps ++ boughtList avail cs buys) 1 = 2 ∧
    posCount (keptList cs keeps ++ boughtList avail cs buys) 2 = 5 ∧
    posCount (keptList cs keeps ++ boughtList avail cs buys) 3 = 5 ∧
    posCount (keptList cs keeps ++ boughtList avail cs buys) 4 = 3 ∧
    (∀ tid : ℕ, clubCount (keptList cs keeps ++ boughtList avail cs buys) tid ≤ 3) ∧
    extra = (soldList cs keeps).length - free ∧
    (free = 2 → (soldList cs keeps).length = 4 →
      transferObjective epf avail cs keeps buys extra =
        ((keptList cs keeps).map (fun p => epf p.id)).sum +
          ((boughtList avail cs buys).map (fun p => epf p.id)).sum - 8) ∧
    (∃ avail' cs' keeps' buys' extra', transferFeasible avail' cs' 1 keeps' buys' extra' ∧
      100 < selCost (keptList cs' keeps' ++ boughtList avail' cs' buys')) := by
  obtain ⟨hsize, hsb, hbudget, hfree, hp1, hp2, hp3, hp4, hclub⟩ := hfeas
  have hlen : (keptList cs keeps ++ boughtList avail cs buys).length = 15 := by
    rw [List.length_append]
    exact hsize
  have hextra : extra = (soldList cs keeps).length - free := by
    have hfeas' : transferFeasible avail cs free keeps buys
        ((soldList cs keeps).length - free) :=
      ⟨hsize, hsb, hbudget, by omega, hp1, hp2, hp3, hp4, hclub⟩
    have hle := hopt _ hfeas'
    rw [transferObjective, transferObjective] at hle
    have hcast : (extra : ℚ) ≤ ((soldList cs keeps).length - free : ℕ) := by
      linarith
    have : extra ≤ (soldList cs keeps).length - free := by
      exact_mod_cast hcast
    omega
  have hclub' : ∀ tid : ℕ, clubCount (keptList cs keeps ++ boughtList avail cs buys) tid ≤ 3 := by
    intro tid
    by_cases hlo : 1 ≤ tid
    · by_cases hhi : tid ≤ 20
      · exact hclub tid (List.mem_range.mpr (by omega)) hlo
      · rw [show clubCount (keptList cs keeps ++ boughtList avail cs buys) tid = 0 from ?_]
        · omega
        · rw [clubCount, List.length_eq_zero, List.filter_eq_nil_iff]
          intro p hpmem
          have := (hteam p hpmem).2
          simp only [decide_eq_true_eq]
          omega
    · rw [show clubCount (keptList cs keeps ++ boughtList avail cs buys) tid = 0 from ?_]
      · omega
      · rw [clubCount, List.length_eq_zero, List.filter_eq_nil_iff]
        intro p hpmem
        have := (hteam p hpmem).1
        simp only [decide_eq_true_eq]
        omega
  refine ⟨hlen, hsb, hbudget, hp1, hp2, hp3, hp4, hclub', hextra, ?_, ?_⟩
  · intro h2 h4
    rw [transferObjective, hextra, h2, h4]
    norm_num
  · refine ⟨squadB, squadB, idsA, [], 0, ?_, ?_⟩
    · refine ⟨by decide, by decide, ?_, by decide, by decide, by decide, by decide,
        by decide, by decide⟩
      norm_num [buyCost, soldValue, boughtList, soldList, candidates, squadB, idsA, mkPlayer]
    · norm_num [selCost, keptList, boughtList, candidates, squadB, idsA, mkPlayer]

/-- Claim C9: a missing snapshot file and a malformed one both load as the
empty current squad, which drives `optimize_squad` into full-rebuild mode;
and a failed snapshot write is only logged — the reported optimization
output is identical whether or not the write succeeds. -/
theorem persistence_fallback_and_report (avail : List Player) (chip : Option Chip) :
    load_squad none = [] ∧
    load_squad (some none) = [] ∧
    usesTransferMode (matchCurrent avail (load_squad none)) chip = false ∧
    usesTransferMode (matchCurrent avail (load_squad (some none))) chip = false ∧
    (∀ writeOk selected total_cost squad_expected best,
      (finishRun writeOk selected total_cost squad_expected best).2 =
        (selected, total_cost, squad_expected, best)) ∧
    (∀ selected, (save_squad false selected).2 = ["Error saving squad"]) := by
  exact ⟨rfl, rfl, rfl, rfl, fun _ _ _ _ _ => rfl, fun _ => rfl⟩

/-- Each lineup `solveA` produces is feasible for its formation. -/
theorem solveA_feasible : ∀ f ids, solveA f = some ids → lineupFeasible squadA f ids := by
  intro f ids h
  unfold solveA at h
  split_ifs at h with h1 h2 h3 h4 h5 h6 h7
  · obtain rfl := Option.some.inj h
    subst h1
    decide
  · obtain rfl := Option.some.inj h
    subst h2
    decide
  · obtain rfl := Option.some.inj h
    subst h3
    decide
  · obtain rfl := Option.some.inj h
    subst h4
    decide
  · obtain rfl := Option.some.inj h
    subst h5
    decide
  · obtain rfl := Option.some.inj h
    subst h6
    decide
  · obtain rfl := Option.some.inj h
    subst h7
    decide

theorem eval_lineup_A_tc :
    optimize_lineup squadA epfA (some Chip.triple_captain) solveA =
      ⟨lineupA541, some (5, 4, 1), 144, pyMax epfA lineupA541, viceOf epfA lineupA541⟩ := by
  simp only [optimize_lineup, formations, lineupInit, stepLineup, solveA, lineupOf, squadA,
    mkPlayer, projTotal, lineupEpSum, capBonus, benchSum, sortedExps, epfA,
    List.insertionSort, List.orderedInsert, List.foldl, List.filter,
    List.map, List.sum, lineupA541]
  simp
  norm_num

theorem eval_lineup_A_none :
    optimize_lineup squadA epfA none solveA =
      ⟨lineupA541, some (5, 4, 1), 129, pyMax epfA lineupA541, viceOf epfA lineupA541⟩ := by
  simp only [optimize_lineup, formations, lineupInit, stepLineup, solveA, lineupOf, squadA,
    mkPlayer, projTotal, lineupEpSum, capBonus, benchSum, sortedExps, epfA,
    List.insertionSort, List.orderedInsert, List.foldl, List.filter,
    List.map, List.sum, lineupA541]
  simp
  norm_num

theorem eval_pyMax_A : pyMax epfA lineupA541 = some (mkPlayer 1 1 1 50) := by
  norm_num [pyMax, lineupA541, mkPlayer, epfA, List.foldl]

theorem eval_viceOf_A : viceOf epfA lineupA541 = some (mkPlayer 3 2 1 50) := by
  norm_num [viceOf, sortPlayersDesc, lineupA541, mkPlayer, List.insertionSort,
    List.orderedInsert, epGE, epfA]

theorem eval_solvedProjs_A_none :
    solvedProjs squadA epfA none solveA =
      [((3, 5, 2), 116), ((3, 4, 3), 113), ((4, 4, 2), 122), ((4, 3, 3), 118),
       ((4, 5, 1), 124), ((5, 4, 1), 129), ((5, 3, 2), 126)] := by
  simp only [solvedProjs, formations, solveA, lineupOf, squadA, mkPlayer, projTotal,
    lineupEpSum, capBonus, benchSum, sortedExps, epfA, List.insertionSort,
    List.orderedInsert, List.filterMap_cons, List.filterMap_nil, List.filter,
    List.map, List.sum, Option.map_some']
  simp
  norm_num

theorem eval_solvedProjs_A_zero :
    solvedProjs squadA epfZ none solveA =
      [((3, 5, 2), 0), ((3, 4, 3), 0), ((4, 4, 2), 0), ((4, 3, 3), 0),
       ((4, 5, 1), 0), ((5, 4, 1), 0), ((5, 3, 2), 0)] := by
  simp only [solvedProjs, formations, solveA, lineupOf, squadA, mkPlayer, projTotal,
    lineupEpSum, capBonus, benchSum, sortedExps, epfZ, List.insertionSort,
    List.orderedInsert, List.filterMap_cons, List.filterMap_nil, List.filter,
    List.map, List.sum, Option.map_some']
  simp

theorem eval_lineup_A_zero :
    optimize_lineup squadA epfZ none solveA = lineupInit := by
  rw [optimize_lineup_eq_loop]
  obtain ⟨_, h2, _⟩ := lineupLoop_char none epfZ squadA solveA formations lineupInit
  apply h2
  apply bestProjValue_of_le
  intro e he
  rw [← solvedProjs_eq_loopEntries, eval_solvedProjs_A_zero] at he
  fin_cases he <;> norm_num [lineupInit]

/-- Claim C1 counterexample: with the triple-captain chip active on a
concrete squad, the winning projected total is 144 = 99 + 3·15, not
99 + 2·15 = 129 — the top scorer is counted four times in total, not
three. -/
theorem triple_captain_not_three_times :
    ¬ ((optimize_lineup squadA epfA (some Chip.triple_captain) solveA).proj =
      lineupEpSum epfA
          (optimize_lineup squadA epfA (some Chip.triple_captain) solveA).lineup +
        2 * (sortedExps epfA
          (optimize_lineup squadA epfA (some Chip.triple_captain) solveA).lineup).headD 0) := by
  rw [eval_lineup_A_tc]
  norm_num [lineupEpSum, sortedExps, lineupA541, mkPlayer, epfA, List.insertionSort,
    List.orderedInsert]

theorem triple_captain_projected_total_witness :
    (optimize_lineup squadA epfA (some Chip.triple_captain) solveA).formation ≠ none ∧
    (optimize_lineup squadA epfA (some Chip.triple_captain) solveA).proj =
      lineupEpSum epfA
          (optimize_lineup squadA epfA (some Chip.triple_captain) solveA).lineup +
        3 * (sortedExps epfA
          (optimize_lineup squadA epfA (some Chip.triple_captain) solveA).lineup).headD 0 := by
  have hwin : (optimize_lineup squadA epfA (some Chip.triple_captain) solveA).formation ≠
      none := by
    rw [eval_lineup_A_tc]
    simp
  exact ⟨hwin, triple_captain_projected_total squadA epfA solveA hwin⟩

/-- Claim C5 counterexample: on a squad whose members all have expected
points 0 the selector returns the empty lineup with no captain and no
vice-captain — not an 11-member lineup with distinct captain and vice. -/
theorem lineup_invariants_fail_degenerate :
    (optimize_lineup squadA epfZ none solveA).lineup.length ≠ 11 ∧
    (optimize_lineup squadA epfZ none solveA).captain = none ∧
    (optimize_lineup squadA epfZ none solveA).vice = none := by
  rw [eval_lineup_A_zero]
  exact ⟨by simp [lineupInit], rfl, rfl⟩

theorem lineup_selector_invariants_witness :
    (∀ f ids, solveA f = some ids → lineupFeasible squadA f ids) ∧
    (squadA.map Player.id).Nodup ∧
    (optimize_lineup squadA epfA none solveA).formation ≠ none ∧
    (optimize_lineup squadA epfA none solveA).lineup.length = 11 ∧
    (∃ c v, (optimize_lineup squadA epfA none solveA).captain = some c ∧
      (optimize_lineup squadA epfA none solveA).vice = some v ∧ c.id ≠ v.id) := by
  have hnd : (squadA.map Player.id).Nodup := by decide
  have hwin : (optimize_lineup squadA epfA none solveA).formation ≠ none := by
    rw [eval_lineup_A_none]
    simp
  obtain ⟨h11, hgk, hform, c, v, hc, hv, hcm, hvm, hcv, hvc, hcall, hvall⟩ :=
    lineup_selector_invariants squadA epfA none solveA solveA_feasible hnd hwin
  exact ⟨solveA_feasible, hnd, hwin, h11, c, v, hc, hv, hcv⟩

/-- Claim C8 counterexample: on a squad whose members all have expected
points 0 every solved formation ties at the highest total 0, the first
formation in enumeration order attains it, yet no formation is returned. -/
theorem best_formation_none_on_ties :
    (optimize_lineup squadA epfZ none solveA).formation = none ∧
    ((solvedProjs squadA epfZ none solveA).find? (fun e =>
      decide (e.2 = bestProjValue (solvedProjs squadA epfZ none solveA) 0))).map
        Prod.fst = some (3, 5, 2) := by
  constructor
  · rw [eval_lineup_A_zero]
    rfl
  · rw [eval_solvedProjs_A_zero]
    norm_num [bestProjValue, List.foldl, List.find?]

theorem best_formation_first_max_witness :
    0 < bestProjValue (solvedProjs squadA epfA none solveA) 0 ∧
    (optimize_lineup squadA epfA none solveA).proj = 129 ∧
    (optimize_lineup squadA epfA none solveA).formation = some (5, 4, 1) := by
  have hmax : bestProjValue (solvedProjs squadA epfA none solveA) 0 = 129 := by
    rw [eval_solvedProjs_A_none]
    norm_num [bestProjValue, List.foldl]
  have hpos : 0 < bestProjValue (solvedProjs squadA epfA none solveA) 0 := by
    rw [hmax]
    norm_num
  obtain ⟨h1, h2⟩ := best_formation_first_max squadA epfA none solveA hpos
  refine ⟨hpos, ?_, ?_⟩
  · rw [h1, hmax]
  · rw [h2]
    simp only [hmax]
    simp only [eval_solvedProjs_A_none]
    rw [List.find?_cons_of_neg _ (by norm_num), List.find?_cons_of_neg _ (by norm_num),
      List.find?_cons_of_neg _ (by norm_num), List.find?_cons_of_neg _ (by norm_num),
      List.find?_cons_of_neg _ (by norm_num), List.find?_cons_of_pos _ (by norm_num)]
    rfl

theorem all_nonpositive_witness :
    (∀ e ∈ solvedProjs squadA epfZ none solveA, e.2 ≤ 0) ∧
    (optimize_lineup squadA epfZ none solveA).lineup = [] ∧
    (optimize_lineup squadA epfZ none solveA).formation = none ∧
    (optimize_lineup squadA epfZ none solveA).proj = 0 ∧
    (optimize_lineup squadA epfZ none solveA).captain = none ∧
    (optimize_lineup squadA epfZ none solveA).vice = none := by
  have hnp : ∀ e ∈ solvedProjs squadA epfZ none solveA, e.2 ≤ 0 := by
    rw [eval_solvedProjs_A_zero]
    intro e he
    fin_cases he <;> norm_num
  exact ⟨hnp, all_nonpositive_keeps_empty_lineup squadA epfZ none solveA hnp⟩

theorem full_rebuild_squad_invariants_witness :
    fullSquadFeasible squadA idsA ∧
    (∀ p ∈ squadA, 1 ≤ p.team ∧ p.team ≤ 20) ∧
    (optimize_squad_result squadA epfA idsA).1.length = 15 ∧
    selCost (optimize_squad_result squadA epfA idsA).1 ≤ 100 ∧
    ∀ tid : ℕ, clubCount (optimize_squad_result squadA epfA idsA).1 tid ≤ 3 := by
  have hfeas : fullSquadFeasible squadA idsA := by
    refine ⟨by decide, ?_, by decide, by decide, by decide, by decide, by decide⟩
    norm_num [selCost, squadOf, squadA, idsA, mkPlayer]
  have hteam : ∀ p ∈ squadA, 1 ≤ p.team ∧ p.team ≤ 20 := by decide
  obtain ⟨h15, hcost, _, _, _, _, hclub⟩ :=
    full_rebuild_squad_invariants squadA idsA epfA hfeas hteam
  exact ⟨hfeas, hteam, h15, hcost, hclub⟩

theorem transfer_mode_invariants_witness :
    transferFeasible availT squadA 2 keepsT buysT 2 ∧
    (soldList squadA keepsT).length = 4 ∧
    transferObjective epfT availT squadA keepsT buysT 2 =
      ((keptList squadA keepsT).map (fun p => epfT p.id)).sum +
        ((boughtList availT squadA buysT).map (fun p => epfT p.id)).sum - 8 := by
  have hfeas : transferFeasible availT squadA 2 keepsT buysT 2 := by
    refine ⟨by decide, by decide, ?_, by decide, by decide, by decide, by decide,
      by decide, by decide⟩
    norm_num [buyCost, soldValue, boughtList, soldList, candidates, availT, squadA,
      keepsT, buysT, mkPlayer]
  have hopt : ∀ e, transferFeasible availT squadA 2 keepsT buysT e →
      transferObjective epfT availT squadA keepsT buysT e ≤
        transferObjective epfT availT squadA keepsT buysT 2 := by
    intro e he
    have hlen : (soldList squadA keepsT).length = 4 := by decide
    have h4 := he.2.2.2.1
    rw [hlen] at h4
    have he2 : (2 : ℚ) ≤ (e : ℚ) := by
      exact_mod_cast (by omega : 2 ≤ e)
    rw [transferObjective, transferObjective]
    push_cast
    linarith
  have hteam : ∀ p ∈ keptList squadA keepsT ++ boughtList availT squadA buysT,
      1 ≤ p.team ∧ p.team ≤ 20 := by decide
  obtain ⟨_, _, _, _, _, _, _, _, _, hbound, _⟩ :=
    transfer_mode_invariants availT squadA epfT 2 keepsT buysT 2 hfeas hopt hteam
  exact ⟨hfeas, by decide, hbound rfl (by decide)⟩

theorem expected_points_formula_witness :
    pW ∈ playersW ∧ tfW pW.team ≠ [] ∧ pW.chance ≠ some 0 ∧
    (pW.id, claimEstimate teamsW tfW pW) ∈ calculate_expected_points teamsW tfW playersW := by
  have hp : pW ∈ playersW := List.mem_cons_self pW [p0W]
  have hfix : tfW pW.team ≠ [] := by
    norm_num [tfW, pW]
  have hch : pW.chance ≠ some 0 := by
    norm_num [pW]
  exact ⟨hp, hfix, hch, expected_points_formula teamsW tfW playersW pW hp hfix hch⟩

theorem unavailable_players_excluded_witness :
    p0W ∈ playersW ∧ (playersW.map Player.id).Nodup ∧ p0W.chance = some 0 ∧
    p0W.id ∉ (calculate_expected_points teamsW tfW playersW).map Prod.fst ∧
    p0W ∉ avail_players playersW (calculate_expected_points teamsW tfW playersW) := by
  have hp : p0W ∈ playersW := by
    rw [playersW]
    exact List.mem_cons_of_mem pW (List.mem_cons_self p0W [])
  have hnd : (playersW.map Player.id).Nodup := by decide
  obtain ⟨h1, _⟩ := unavailable_players_excluded teamsW tfW playersW p0W hp hnd
  obtain ⟨ha, hb⟩ := h1 (Or.inl rfl)
  exact ⟨hp, hnd, rfl, ha, hb⟩

end FPL
